import Mathlib

/-!
Verification development for the D365 update synchronization engine.

The TypeScript sources are shallowly embedded as executable Lean
definitions: SQLite tables become lists of records, the GitHub remote
becomes an explicit environment of response oracles, and the async
orchestration becomes a pure state-passing function.  Machine integers
do not occur (all counters are small  naturals); SQL `NULL` becomes
`Option`.  Definition names follow the source names.
-/

namespace D365

/-- Model of JavaScript `s.includes(sub)`: `sub` occurs as a contiguous
substring of `s` (decidable via `List.IsInfix` on the character lists). -/
def containsSub (s sub : String) : Bool :=
  decide (sub.data <:+: s.data)

/-- Model of JavaScript `s.endsWith(t)` / Lean `String.endsWith`:
`t`'s characters are a suffix of `s`'s (decidable via `List.IsSuffix`;
the library `String.endsWith` is not kernel-reducible). -/
def strEndsWith (s t : String) : Bool :=
  decide (t.data <:+ s.data)

/-- Model of JavaScript `s.startsWith(t)`: `t`'s characters lead `s`'s. -/
def strStartsWith (s t : String) : Bool :=
  decide (t.data <+: s.data)

/-- Model of JavaScript `s.toLowerCase()`: lowercase each character. -/
def toLowerStr (s : String) : String :=
  String.mk (s.data.map Char.toLower)

/-- Model of SQLite `substr(s, start, len)` for a positive 1-based `start`
(the only form the embedded queries use); counts characters. -/
def sqliteSubstr (s : String) (start len : Nat) : String :=
  String.mk ((s.data.drop (start - 1)).take len)

/-! ## Data model (src/src/mcp/types.ts, src/src/mcp/database/schema.sql) -/

/-- Record of the `d365_updates` table / the `D365Update` interface of
`types.ts`.  The autoincrement `id` column is omitted: no embedded
operation reads or branches on it. -/
structure D365Update where
  filePath : String
  title : String
  description : Option String
  product : String
  version : Option String
  releaseDate : Option String
  previewDate : Option String
  gaDate : Option String
  commitSha : Option String
  commitDate : Option String
  firstCommitDate : Option String
  fileUrl : String
  rawContentUrl : String
deriving Repr, DecidableEq

/-- Record of the `d365_commits` table / the `D365Commit` interface. -/
structure D365Commit where
  sha : String
  message : String
  author : Option String
  date : String
  filesChanged : Option Nat
  additions : Option Nat
  deletions : Option Nat
deriving Repr, DecidableEq

/-- Row of the singleton `sync_checkpoint` table. -/
structure SyncCheckpoint where
  lastSync : String
  syncStatus : String
  recordCount : Nat
  lastSyncDurationMs : Option Nat
  lastError : Option String
deriving Repr, DecidableEq

/-- Argument of `updateSyncCheckpoint` (`queries.ts`): each field is
updated only when supplied; for `lastError` the supplied value may itself
be SQL `NULL`, hence the nested option. -/
structure CheckpointPatch where
  lastSync : Option String := none
  syncStatus : Option String := none
  recordCount : Option Nat := none
  lastSyncDurationMs : Option Nat := none
  lastError : Option (Option String) := none

/-- Embeds `updateSyncCheckpoint` of `database.ts`: a SQL `UPDATE` that
sets exactly the supplied fields of the singleton row. -/
def updateSyncCheckpoint (cp : SyncCheckpoint) (p : CheckpointPatch) : SyncCheckpoint :=
  { lastSync := p.lastSync.getD cp.lastSync
    syncStatus := p.syncStatus.getD cp.syncStatus
    recordCount := p.recordCount.getD cp.recordCount
    lastSyncDurationMs := match p.lastSyncDurationMs with
      | some d => some d
      | none => cp.lastSyncDurationMs
    lastError := p.lastError.getD cp.lastError }

/-! ## Store operations (src/src/mcp/database/database.ts, sql.js query layer) -/

/-- Effect of the `ON CONFLICT(file_path) DO UPDATE SET` clause of
`upsertUpdate` (`database.ts`) on the conflicting row `r` with incoming
record `u`: every column is overwritten from `excluded` except
`file_path` (the conflict key) and `first_commit_date`, which becomes
`COALESCE(d365_updates.first_commit_date, excluded.first_commit_date)`. -/
def applyUpdateRow (r u : D365Update) : D365Update :=
  { filePath := r.filePath
    title := u.title
    description := u.description
    product := u.product
    version := u.version
    releaseDate := u.releaseDate
    previewDate := u.previewDate
    gaDate := u.gaDate
    commitSha := u.commitSha
    commitDate := u.commitDate
    firstCommitDate := r.firstCommitDate.orElse fun _ => u.firstCommitDate
    fileUrl := u.fileUrl
    rawContentUrl := u.rawContentUrl }

/-- Embeds `upsertUpdate` of `database.ts` (sql.js query layer):
`INSERT ... ON CONFLICT(file_path) DO UPDATE`.  `file_path` is `UNIQUE`
in the schema; on a list-level store the conflict branch rewrites the
rows whose path equals the incoming one, the insert branch appends. -/
def upsertUpdate (rows : List D365Update) (u : D365Update) : List D365Update :=
  if rows.any fun r => r.filePath == u.filePath then
    rows.map fun r => if r.filePath == u.filePath then applyUpdateRow r u else r
  else
    rows ++ [u]

/-- Embeds `upsertCommit` of `database.ts`: `INSERT ... ON CONFLICT(sha)
DO UPDATE` overwriting every non-key column. -/
def upsertCommit (rows : List D365Commit) (c : D365Commit) : List D365Commit :=
  if rows.any fun r => r.sha == c.sha then
    rows.map fun r => if r.sha == c.sha then c else r
  else
    rows ++ [c]

/-- Embeds `updateCommitDate` of `database.ts`:
`UPDATE d365_updates SET commit_date = ?, commit_sha = ? WHERE file_path
LIKE '%' || ?`.  The pattern is `%` followed by a literal file path;
paths in this system contain no `%`, and the `_` wildcard of `LIKE` is
modeled as the literal character, so the pattern is a suffix test. -/
def updateCommitDate (rows : List D365Update) (filePath commitDate commitSha : String) :
    List D365Update :=
  rows.map fun r =>
    if strEndsWith r.filePath filePath then
      { r with commitDate := some commitDate, commitSha := some commitSha }
    else r

/-- Embeds `updateFirstCommitDate` of `database.ts`:
`UPDATE d365_updates SET first_commit_date = ? WHERE file_path LIKE ?
AND first_commit_date IS NULL` (same `LIKE`-as-suffix modeling as in
`updateCommitDate`). -/
def updateFirstCommitDate (rows : List D365Update) (filePath firstCommitDate : String) :
    List D365Update :=
  rows.map fun r =>
    if strEndsWith r.filePath filePath && r.firstCommitDate == none then
      { r with firstCommitDate := some firstCommitDate }
    else r

/-- Embeds `getFileShaMap` of `database.ts`:
`SELECT file_path, commit_sha FROM d365_updates WHERE commit_sha IS NOT
NULL`, collected into a path-keyed map. -/
def getFileShaMap (rows : List D365Update) : List (String × String) :=
  rows.filterMap fun r => match r.commitSha with
    | some s => some (r.filePath, s)
    | none => none

/-- Embeds `getRepositoryShaMap` of `database.ts`: reads the
`repository_shas` table (the catch branch for a missing table is
initialization glue and not modeled). -/
def getRepositoryShaMap (repoShas : List (String × String)) : List (String × String) :=
  repoShas

/-- One `INSERT OR REPLACE INTO repository_shas` statement. -/
def insertOrReplaceSha (tbl : List (String × String)) (kv : String × String) :
    List (String × String) :=
  if tbl.any fun e => e.fst == kv.fst then
    tbl.map fun e => if e.fst == kv.fst then kv else e
  else
    tbl ++ [kv]

/-- Embeds `saveRepositoryShas` of `database.ts`: one `INSERT OR REPLACE`
per mapping entry. -/
def saveRepositoryShas (tbl : List (String × String)) (m : List (String × String)) :
    List (String × String) :=
  m.foldl insertOrReplaceSha tbl

/-! ## Remote client (src/src/mcp/api/githubClient.ts) -/

/-- Constant `MAX_RETRIES` of `githubClient.ts`. -/
def MAX_RETRIES : Nat := 3

/-- Constant `RETRY_DELAY_MS` of `githubClient.ts`. -/
def RETRY_DELAY_MS : Nat := 1000

/-- Constant `PARALLEL_TREE_LIMIT` of `githubClient.ts`. -/
def PARALLEL_TREE_LIMIT : Nat := 4

/-- Constant `PARALLEL_FILE_LIMIT` of `githubClient.ts`. -/
def PARALLEL_FILE_LIMIT : Nat := 5

/-- What one `fetch(url, { headers })` call inside `githubFetch` yields:
either a transport failure (the promise rejects) or an HTTP response with
a status code and the `X-RateLimit-Reset` header value when present. -/
inductive FetchOutcome where
  | transportError (msg : String)
  | response (status : Nat) (rateLimitReset : Option String)
deriving Repr, DecidableEq

/-- Errors `githubFetch` can throw.  `rateLimit` is the
`GitHub API rate limit exceeded. Reset at: ...` error built on a 403
response, carrying the reset header it embeds into its message;
`httpError` is the `GitHub API error: <status>` error; `transport` is a
rejection of `fetch` itself; `unreachable` is the trailing
`throw new Error("Unreachable")`. -/
inductive GithubError where
  | rateLimit (reset : Option String)
  | httpError (status : Nat)
  | transport (msg : String)
  | unreachable
deriving Repr, DecidableEq

/-- Result of one loop iteration of `githubFetch`, before the catch:
a 403 throws the rate-limit error, any other non-ok status (`ok` is
status 200-299) throws the HTTP error, a transport rejection propagates,
otherwise the response is returned. -/
def attemptResult : FetchOutcome → Except GithubError Nat
  | .transportError m => .error (.transport m)
  | .response status reset =>
    if status == 403 then .error (.rateLimit reset)
    else if !(200 ≤ status && status ≤ 299) then .error (.httpError status)
    else .ok status

/-- Loop body of `githubFetch`: `attempt` is the 1-based attempt counter,
`remaining` the number of further iterations the `for` loop would run
(`MAX_RETRIES - attempt`).  On an error at `attempt === MAX_RETRIES`
(here `remaining = 0`) the error is rethrown; otherwise the loop sleeps
`RETRY_DELAY_MS * attempt` and retries.  The `remaining` fuel reaching
zero outside an error corresponds to the trailing `throw new
Error("Unreachable")`.  Returns the result, the list of sleep delays in
ms, and the number of the attempt on which the loop ended. -/
def githubFetchLoop (outcomes : Nat → FetchOutcome) :
    Nat → Nat → Except GithubError Nat × List Nat × Nat
  | attempt, 0 => (.error .unreachable, [], attempt)
  | attempt, remaining + 1 =>
    match attemptResult (outcomes attempt) with
    | .ok s => (.ok s, [], attempt)
    | .error e =>
      if remaining == 0 then (.error e, [], attempt)
      else
        let rest := githubFetchLoop outcomes (attempt + 1) remaining
        (rest.fst, RETRY_DELAY_MS * attempt :: rest.snd.fst, rest.snd.snd)

/-- Embeds `githubFetch` of `githubClient.ts`: the retry loop over
attempts `1..MAX_RETRIES`, with `outcomes n` the outcome the network
would produce for the `n`-th attempt.  Header construction and logging
are formatting glue and not modeled. -/
def githubFetch (outcomes : Nat → FetchOutcome) : Except GithubError Nat × List Nat × Nat :=
  githubFetchLoop outcomes 1 MAX_RETRIES

/-- Value-level model of `parallelLimit` of `githubClient.ts`:
`Promise.all(items.map(...))` with each unit gated by the semaphore.
Each unit's outcome is `f` of its own item, independent of the others;
`Promise.all` fulfills with the input-aligned result list when every
unit fulfills and otherwise rejects with a unit's rejection (which of
several simultaneous rejections wins is scheduler dependent; the model
takes the first in input order).  The `limit` argument only bounds how
many units are in flight at once, a scheduling property with no effect
on the returned value. -/
def parallelLimit {α β ε : Type} (limit : Nat) (f : α → Except ε β) :
    List α → Except ε (List β)
  | [] => .ok []
  | a :: as =>
    match f a, parallelLimit limit f as with
    | .ok r, .ok rs => .ok (r :: rs)
    | .error e, _ => .error e
    | .ok _, .error e => .error e

/-! ## Tree scanning (src/src/mcp/api/githubClient.ts) -/

/-- Entry of `TARGET_REPOSITORIES` (`types.ts`). -/
structure RepoCfg where
  owner : String
  repo : String
  branch : String
  basePath : String
deriving Repr, DecidableEq

/-- The `owner/repo` key used for both revision maps. -/
def repoKey (r : RepoCfg) : String :=
  r.owner ++ "/" ++ r.repo

/-- Entry of a `git/trees` response (`GitHubTreeItem` of `types.ts`);
`mode`, `url` and `size` are never read by the embedded code. -/
structure GitHubTreeItem where
  path : String
  type : String
  sha : String
deriving Repr, DecidableEq

/-- Embeds `isWhatsNewFile` of `githubClient.ts`. -/
def isWhatsNewFile (path : String) : Bool :=
  let lowerPath := toLowerStr path
  containsSub lowerPath "whats-new" || containsSub lowerPath "what-s-new" ||
    containsSub lowerPath "release-notes"

/-- Candidate document descriptor built by the tree scan.  The source
also derives `product` and `version` from the path (`inferProduct`,
`extractVersion`); the spec scopes those heuristics out as formatting
glue and no embedded operation branches on them, so they are omitted. -/
structure WhatsNewFile where
  path : String
  url : String
  rawUrl : String
  sha : String
deriving Repr, DecidableEq

/-- Per-repository body of the tree loops in `getWhatsNewFiles` and
`getWhatsNewFilesIncremental`: keep blobs with the `.md` extension under
the repository's `basePath` whose path passes `isWhatsNewFile`, and
attach the browse and raw URLs. -/
def repoWhatsNewFiles (repo : RepoCfg) (tree : List GitHubTreeItem) : List WhatsNewFile :=
  (tree.filter fun item =>
      item.type == "blob" && strEndsWith item.path ".md" &&
      strStartsWith item.path repo.basePath && isWhatsNewFile item.path).map fun item =>
    { path := item.path
      url := "https://github.com/" ++ repo.owner ++ "/" ++ repo.repo ++ "/blob/" ++
        repo.branch ++ "/" ++ item.path
      rawUrl := "https://raw.githubusercontent.com/" ++ repo.owner ++ "/" ++ repo.repo ++
        "/" ++ repo.branch ++ "/" ++ item.path
      sha := item.sha }

/-- Embeds `getAllRepositoryLatestShas`: probe every configured
repository for its tip commit sha (`getRepositoryLatestCommitSha`
returns `null` on any failure, modeled by the `probe` oracle returning
`none`) and collect the non-null results into a map. -/
def getAllRepositoryLatestShas (repos : List RepoCfg) (probe : String → Option String) :
    List (String × String) :=
  repos.filterMap fun r => (probe (repoKey r)).map fun s => (repoKey r, s)

/-- The change test of `getWhatsNewFilesIncremental`:
`!previousSha || previousSha !== currentSha`. -/
def repoChanged (previousSha currentSha : Option String) : Bool :=
  match previousSha with
  | none => true
  | some p => !(currentSha == some p)

/-- Return type of `getWhatsNewFilesIncremental`, plus the
`treesFetched` instrumentation field recording for which repositories a
tree-listing request (`getRepositoryTree`) was issued. -/
structure IncrementalResult where
  files : List WhatsNewFile
  newShaMap : List (String × String)
  changedRepos : List String
  skippedRepos : List String
  treesFetched : List String
deriving Repr, DecidableEq

/-- Embeds `getWhatsNewFilesIncremental` of `githubClient.ts`: probe all
repositories, classify each as changed or skipped by comparing the
stored sha with the probed one, and issue tree listings (through
`parallelLimit`, which can fail) only for the changed ones.  `tree` is
the oracle for `getRepositoryTree`, keyed by `repoKey`. -/
def getWhatsNewFilesIncremental (repos : List RepoCfg)
    (tree : String → Except String (List GitHubTreeItem))
    (probe : String → Option String) (previousShaMap : List (String × String)) :
    Except String IncrementalResult :=
  let currentShaMap := getAllRepositoryLatestShas repos probe
  let changed := repos.filter fun r =>
    repoChanged (previousShaMap.lookup (repoKey r)) (currentShaMap.lookup (repoKey r))
  let skipped := (repos.filter fun r =>
    !repoChanged (previousShaMap.lookup (repoKey r)) (currentShaMap.lookup (repoKey r))).map repoKey
  if changed.isEmpty then
    .ok { files := [], newShaMap := currentShaMap, changedRepos := [],
          skippedRepos := skipped, treesFetched := [] }
  else
    match parallelLimit PARALLEL_TREE_LIMIT
        (fun r => (tree (repoKey r)).map (repoWhatsNewFiles r)) changed with
    | .error e => .error e
    | .ok fss =>
      .ok { files := fss.flatten, newShaMap := currentShaMap,
            changedRepos := changed.map repoKey, skippedRepos := skipped,
            treesFetched := changed.map repoKey }

/-- Embeds `getWhatsNewFiles` of `githubClient.ts` (the forced, full
scan): tree listings for every configured repository. -/
def getWhatsNewFiles (repos : List RepoCfg)
    (tree : String → Except String (List GitHubTreeItem)) :
    Except String (List WhatsNewFile) :=
  (parallelLimit PARALLEL_TREE_LIMIT
    (fun r => (tree (repoKey r)).map (repoWhatsNewFiles r)) repos).map List.flatten

/-! ## Search (searchUpdates of src/src/mcp/database/database.ts) -/

/-- The `SearchFilters` interface of `types.ts`. -/
structure SearchFilters where
  query : Option String := none
  product : Option String := none
  version : Option String := none
  dateFrom : Option String := none
  dateTo : Option String := none
  limit : Option Nat := none
  offset : Option Nat := none

/-- SQLite text comparison used by the date filters and the `ORDER BY`
key: byte order of the UTF-8 encodings, which on the pure-ASCII date
strings compared here is the character-list lexicographic order. -/
def sqlLe (a b : String) : Bool :=
  decide (a.data ≤ b.data)

/-- The SQL expression
`substr(d, 7, 4) || '-' || substr(d, 1, 2) || '-' || substr(d, 4, 2)`
used by `searchUpdates` to turn a `MM/DD/YYYY` release date into
`YYYY-MM-DD`. -/
def normalizeReleaseDate (d : String) : String :=
  sqliteSubstr d 7 4 ++ "-" ++ sqliteSubstr d 1 2 ++ "-" ++ sqliteSubstr d 4 2

/-- The `dateFrom` condition of `searchUpdates`: the row passes when its
non-null normalized release date is `>=` the bound OR its non-null
commit date is `>=` the bound (SQL string comparison). -/
def dateFromCond (r : D365Update) (a : String) : Bool :=
  (match r.releaseDate with
    | some rd => sqlLe a (normalizeReleaseDate rd)
    | none => false) ||
  (match r.commitDate with
    | some cd => sqlLe a cd
    | none => false)

/-- The `dateTo` condition of `searchUpdates`, mirror image of
`dateFromCond`. -/
def dateToCond (r : D365Update) (b : String) : Bool :=
  (match r.releaseDate with
    | some rd => sqlLe (normalizeReleaseDate rd) b
    | none => false) ||
  (match r.commitDate with
    | some cd => sqlLe cd b
    | none => false)

/-- Conjunction of the conditional `WHERE` fragments of `searchUpdates`
(product equality, version `LIKE '%' || v || '%'` which is `NULL`-false
on a null version, and the two date bounds); an absent filter
contributes no condition. -/
def searchFilterPred (f : SearchFilters) (r : D365Update) : Bool :=
  (match f.product with
    | some p => r.product == p
    | none => true) &&
  (match f.version with
    | some v => (match r.version with
        | some s => containsSub s v
        | none => false)
    | none => true) &&
  (match f.dateFrom with
    | some a => dateFromCond r a
    | none => true) &&
  (match f.dateTo with
    | some b => dateToCond r b
    | none => true)

/-- The `ORDER BY` key of `searchUpdates`:
`COALESCE(CASE WHEN release_date IS NOT NULL THEN <normalized> ELSE NULL
END, commit_date)`. -/
def sortKey (r : D365Update) : Option String :=
  match r.releaseDate with
  | some rd => some (normalizeReleaseDate rd)
  | none => r.commitDate

/-- The row order `DESC NULLS LAST` on `sortKey`: `a` may precede `b`
when both keys are non-null and `a`'s is `>=` `b`'s, or `b`'s key is
null. -/
def rowBefore (a b : D365Update) : Bool :=
  match sortKey a, sortKey b with
  | some x, some y => sqlLe y x
  | some _, none => true
  | none, some _ => false
  | none, none => true

/-- Insertion step of the `ORDER BY` model. -/
def insertSorted (a : D365Update) : List D365Update → List D365Update
  | [] => [a]
  | b :: bs => if rowBefore a b then a :: b :: bs else b :: insertSorted a bs

/-- Model of the `ORDER BY ... DESC NULLS LAST` clause: a sort of the
filtered rows by `rowBefore` (SQLite guarantees the order, not a
particular algorithm; insertion sort realizes it). -/
def sortRows : List D365Update → List D365Update
  | [] => []
  | a :: as => insertSorted a (sortRows as)

/-- The `LIMIT`/`OFFSET` tail of the `searchUpdates` query: the
`OFFSET` clause (emitted only for a positive offset) drops rows, the
`LIMIT` clause truncates; SQL applies `OFFSET` before `LIMIT`.  (When
an offset is supplied without a limit the emitted SQL has a bare
`OFFSET`, which SQLite rejects; that configuration is outside the
embedded behavior.) -/
def applyPagination (f : SearchFilters) (l : List D365Update) : List D365Update :=
  match f.limit with
  | some li =>
    (match f.offset with
      | some o => if 0 < o then l.drop o else l
      | none => l).take li
  | none =>
    match f.offset with
    | some o => if 0 < o then l.drop o else l
    | none => l

/-- Embeds `searchUpdates` of `database.ts` (sql.js query layer).
`ftsMatch` is the oracle for the `d365_updates_fts MATCH ?` full-text
join used when `query` is supplied; the rows then pass the conditional
`WHERE` fragments, are ordered `DESC NULLS LAST` on the normalized
date, and are paginated. -/
def searchUpdates (ftsMatch : String → D365Update → Bool) (rows : List D365Update)
    (f : SearchFilters) : List D365Update :=
  applyPagination f (sortRows
    ((match f.query with
      | some q => rows.filter (ftsMatch q)
      | none => rows).filter (searchFilterPred f)))

/-- Predicate written from the C5 claim's wording, kept only to compare
against the embedded `searchUpdates`: the inclusive date range
"evaluated against the normalized declared release date when it is
populated, otherwise against the last-change (commit) date". -/
def specDateRangePred (f : SearchFilters) (r : D365Update) : Bool :=
  (match f.dateFrom, sortKey r with
    | some a, some k => sqlLe a k
    | some _, none => false
    | none, _ => true) &&
  (match f.dateTo, sortKey r with
    | some b, some k => sqlLe k b
    | some _, none => false
    | none, _ => true)

/-! ## Sync orchestrator (src/src/mcp/services/sync.service.ts) -/

/-- The `SyncOptions` interface of `sync.service.ts` (`token` is pure
request glue and not modeled); absent fields take the destructuring
defaults `force = false`, `maxFiles = 500`. -/
structure SyncOptions where
  force : Option Bool := none
  maxFiles : Option Nat := none

/-- The `SyncResult` interface of `types.ts`. -/
structure SyncResult where
  success : Bool
  updatesCount : Nat
  commitsCount : Nat
  durationMs : Nat
  error : Option String := none
deriving Repr, DecidableEq

/-- The persistent store: the tables of the schema that the sync run
touches (`d365_updates`, `d365_commits`, `repository_shas`, and the
singleton `sync_checkpoint` row). -/
structure DB where
  updates : List D365Update
  commits : List D365Commit
  repoShas : List (String × String)
  checkpoint : SyncCheckpoint
deriving Repr, DecidableEq

/-- Environment of remote oracles for one sync run, abstracting the
network and the wall clock.
`probe` stands for `getRepositoryLatestCommitSha` per repository key
(`none` on failure, as the source catches and returns `null`);
`tree` for `getRepositoryTree`; `fetchFile` for `fetchAndParseFile`
keyed by the candidate's raw URL; `recentCommits` for
`getRecentCommits(since)`; `changedFiles` for
`getRecentlyChangedFiles` as `(filePath, date, sha)` triples;
`firstCommitDate` for `getFileFirstCommitDate` (both best-effort,
failures already folded to empty/`none` as in the source);
`hoursSinceLastSyncLt1` for the wall-clock test
`hoursSinceLastSync < 1`; `nowIso` for `new Date().toISOString()` and
`durationMs` for `Date.now() - startTime`.  `repos` is the static
`TARGET_REPOSITORIES` configuration. -/
structure SyncEnv where
  repos : List RepoCfg
  probe : String → Option String
  tree : String → Except String (List GitHubTreeItem)
  fetchFile : String → Except String D365Update
  recentCommits : Option String → List D365Commit
  changedFiles : List (String × String × String)
  firstCommitDate : String → Option String
  hoursSinceLastSyncLt1 : Bool
  nowIso : String
  durationMs : Nat

/-- The file-level gate of `syncFromGitHub`: a candidate passes when the
run is forced, the store's sha map is empty (first sync), or the stored
sha for its path differs from (or does not exist for) the candidate's
sha — `existingSha !== file.sha`. -/
def gatePred (force isFirstSync : Bool) (shaMap : List (String × String))
    (f : WhatsNewFile) : Bool :=
  force || isFirstSync || (shaMap.lookup f.path != some f.sha)

/-- The `filesToProcess` computation of `syncFromGitHub`: filter by
`gatePred`, then `.slice(0, maxFiles)`. -/
def gateFiles (force isFirstSync : Bool) (shaMap : List (String × String))
    (maxFiles : Nat) (files : List WhatsNewFile) : List WhatsNewFile :=
  (files.filter (gatePred force isFirstSync shaMap)).take maxFiles

/-- Accumulated outcome of the file-processing loop. -/
structure ProcessAcc where
  updates : List D365Update
  updatesCount : Nat
  errorCount : Nat
  upsertedPaths : List String
deriving Repr, DecidableEq

/-- The `processFile` batches of `syncFromGitHub`: each candidate is
fetched and parsed (`fetchAndParseFile`, which never throws into the
batch — `processFile` catches); a success gets `commitSha` set to the
candidate's tree sha and is upserted, a failure only increments the
error counter.  The source runs batches of `PARALLEL_FILE_LIMIT` through
`Promise.all` and then applies the batch's upserts in order; since
`processFile` is total the resulting store and counters equal this
sequential fold. -/
def processFiles (env : SyncEnv) (rows : List D365Update) :
    List WhatsNewFile → ProcessAcc
  | [] => { updates := rows, updatesCount := 0, errorCount := 0, upsertedPaths := [] }
  | f :: fs =>
    match env.fetchFile f.rawUrl with
    | .ok u =>
      let acc := processFiles env (upsertUpdate rows { u with commitSha := some f.sha }) fs
      { acc with updatesCount := acc.updatesCount + 1, upsertedPaths := f.path :: acc.upsertedPaths }
    | .error _ =>
      let acc := processFiles env rows fs
      { acc with errorCount := acc.errorCount + 1 }

/-- The candidate-listing step of `syncFromGitHub`: forced runs use the
full scan, incremental runs use `getWhatsNewFilesIncremental` against
the stored repository sha map.  Returns the candidates, the new
repository sha map to save (absent on forced runs), whether the
incremental check found no changed repository, and the tree-listing
instrumentation. -/
def listingStep (env : SyncEnv) (force : Bool) (prevShas : List (String × String)) :
    Except String (List WhatsNewFile × Option (List (String × String)) × Bool × List String) :=
  if force then
    (getWhatsNewFiles env.repos env.tree).map fun fs => (fs, none, false, [])
  else
    match getWhatsNewFilesIncremental env.repos env.tree env.probe
        (getRepositoryShaMap prevShas) with
    | .error e => .error e
    | .ok inc =>
      .ok (inc.files, some inc.newShaMap, inc.changedRepos.isEmpty, inc.treesFetched)

/-- Instrumentation of one sync run: which repositories had a tree
listing issued, which candidates had a raw-content fetch issued
(`fetchAndParseFile` called), and which paths were upserted. -/
structure SyncTrace where
  treesFetched : List String
  rawFetched : List WhatsNewFile
  upsertedPaths : List String
deriving Repr, DecidableEq

/-- Embeds `syncFromGitHub` of `sync.service.ts` as a pure function of
the store, the remote environment and the options.  The run:
sets the checkpoint to `syncing` (clearing `last_error`), early-returns
when a non-forced run follows a sync less than an hour old, lists
candidates (`listingStep`; its failure is the structural-failure catch
path, which stamps the checkpoint `error`), early-returns a non-forced
run with no changed repository, gates candidates by stored sha and
`maxFiles`, fetches and upserts them, upserts recent commits, backfills
commit dates and (for at most 10 recently changed files that lie under
a configured base path) first-commit dates, saves the repository sha
map when the incremental check ran, and stamps the checkpoint `idle`
with counts, duration and a `<n> files failed` summary when any
candidate failed. -/
def syncFromGitHub (db : DB) (env : SyncEnv) (opts : SyncOptions) :
    DB × SyncResult × SyncTrace :=
  let force := opts.force.getD false
  let maxFiles := opts.maxFiles.getD 500
  let cp1 := updateSyncCheckpoint db.checkpoint
    { syncStatus := some "syncing", lastError := some none }
  let db1 : DB := { db with checkpoint := cp1 }
  let checkpoint := db1.checkpoint
  if !force && env.hoursSinceLastSyncLt1 then
    let cpSkip := updateSyncCheckpoint db1.checkpoint { syncStatus := some "idle" }
    ({ db1 with checkpoint := cpSkip },
     { success := true, updatesCount := checkpoint.recordCount, commitsCount := 0,
       durationMs := env.durationMs },
     { treesFetched := [], rawFetched := [], upsertedPaths := [] })
  else
    match listingStep env force db1.repoShas with
    | .error e =>
      let cpErr := updateSyncCheckpoint db1.checkpoint
        { syncStatus := some "error", lastError := some (some e) }
      ({ db1 with checkpoint := cpErr },
       { success := false, updatesCount := 0, commitsCount := 0,
         durationMs := env.durationMs, error := some e },
       { treesFetched := [], rawFetched := [], upsertedPaths := [] })
    | .ok (files, newShaMap, changedEmpty, treesFetched) =>
      if !force && changedEmpty then
        let cpNoChange := updateSyncCheckpoint db1.checkpoint
          { lastSync := some env.nowIso, syncStatus := some "idle",
            lastSyncDurationMs := some env.durationMs }
        ({ db1 with checkpoint := cpNoChange },
         { success := true, updatesCount := 0, commitsCount := 0,
           durationMs := env.durationMs },
         { treesFetched := treesFetched, rawFetched := [], upsertedPaths := [] })
      else
        let existingShaMap := getFileShaMap db1.updates
        let isFirstSync := existingShaMap.isEmpty
        let filesToProcess := gateFiles force isFirstSync existingShaMap maxFiles files
        let acc := processFiles env db1.updates filesToProcess
        let since := if force then none else some checkpoint.lastSync
        let commitsList := env.recentCommits since
        let commits2 := commitsList.foldl upsertCommit db1.commits
        let updates3 := env.changedFiles.foldl
          (fun rows cf => updateCommitDate rows cf.fst cf.snd.fst cf.snd.snd) acc.updates
        let updates4 := (env.changedFiles.take 10).foldl
          (fun rows cf =>
            match env.repos.find? fun repo => strStartsWith cf.fst repo.basePath with
            | some _ =>
              match env.firstCommitDate cf.fst with
              | some d => updateFirstCommitDate rows cf.fst d
              | none => rows
            | none => rows) updates3
        let repoShas2 := match newShaMap with
          | some m => saveRepositoryShas db1.repoShas m
          | none => db1.repoShas
        let cp2 := updateSyncCheckpoint db1.checkpoint
          { lastSync := some env.nowIso, syncStatus := some "idle",
            recordCount := some acc.updatesCount, lastSyncDurationMs := some env.durationMs,
            lastError := some (if 0 < acc.errorCount then
              some (toString acc.errorCount ++ " files failed") else none) }
        ({ updates := updates4, commits := commits2, repoShas := repoShas2, checkpoint := cp2 },
         { success := true, updatesCount := acc.updatesCount,
           commitsCount := commitsList.length, durationMs := env.durationMs },
         { treesFetched := treesFetched, rawFetched := filesToProcess,
           upsertedPaths := acc.upsertedPaths })

/-! ## Concrete data used by witnesses and counterexamples -/

/-- Stored row with a set first-observed date (C1 witness data). -/
def c1Row : D365Update :=
  { filePath := "a/whats-new.md", title := "t", description := none,
    product := "P", version := none, releaseDate := none, previewDate := none,
    gaDate := none, commitSha := some "s1", commitDate := none,
    firstCommitDate := some "2020-01-01", fileUrl := "f", rawContentUrl := "r" }

/-- Incoming record for the same path with a null first-observed date
(C1 witness data). -/
def c1Incoming : D365Update :=
  { filePath := "a/whats-new.md", title := "t2", description := none,
    product := "P", version := none, releaseDate := none, previewDate := none,
    gaDate := none, commitSha := some "s2", commitDate := none,
    firstCommitDate := none, fileUrl := "f", rawContentUrl := "r" }

/-- Attempt outcomes where the first attempt is quota-exhausted (HTTP
403) and every later attempt succeeds (C3 counterexample data). -/
def c3Outcomes : Nat → FetchOutcome := fun n =>
  if n == 1 then .response 403 (some "1700000000") else .response 200 none

/-- Attempt outcomes where every attempt is quota-exhausted (C3 witness
data). -/
def c3AllQuota : Nat → FetchOutcome := fun _ =>
  .response 403 (some "1700000000")

/-- Attempt outcomes where every attempt fails at the transport level
(C7 witness data). -/
def c7Outcomes : Nat → FetchOutcome := fun n =>
  .transportError (toString n)

/-- Batch worker where exactly the unit `2` fails (C8 data). -/
def c8f : Nat → Except String Nat := fun n =>
  if n == 2 then .error "boom" else .ok (n * 10)

/-- First configured repository (C2 witness data). -/
def c2Repo1 : RepoCfg := { owner := "o", repo := "r1", branch := "main", basePath := "a" }

/-- Second configured repository (C2 witness data). -/
def c2Repo2 : RepoCfg := { owner := "o", repo := "r2", branch := "main", basePath := "b" }

/-- Third configured repository (C2 witness data). -/
def c2Repo3 : RepoCfg := { owner := "o", repo := "r3", branch := "main", basePath := "c" }

/-- Three configured repositories (C2 witness data, the spec's
three-repo scenario). -/
def c2Repos : List RepoCfg := [c2Repo1, c2Repo2, c2Repo3]

/-- Probe oracle: `o/r3`'s tip moved, the other two are unchanged. -/
def c2Probe : String → Option String := fun k =>
  if k == "o/r1" then some "s1" else if k == "o/r2" then some "s2" else some "s3x"

/-- Stored repository revision map (C2 witness data). -/
def c2Prev : List (String × String) :=
  [("o/r1", "s1"), ("o/r2", "s2"), ("o/r3", "s3")]

/-- Tree oracle answering the empty tree (C2 witness data). -/
def c2Tree : String → Except String (List GitHubTreeItem) := fun _ => .ok []

/-- The incremental result the C2 witness data produces. -/
def c2Inc : IncrementalResult :=
  { files := [], newShaMap := [("o/r1", "s1"), ("o/r2", "s2"), ("o/r3", "s3x")],
    changedRepos := ["o/r3"], skippedRepos := ["o/r1", "o/r2"],
    treesFetched := ["o/r3"] }

/-- Store whose repository revision map is `c2Prev` (C2 witness data). -/
def c2Db : DB :=
  { updates := [], commits := [], repoShas := c2Prev,
    checkpoint := { lastSync := "1970-01-01T00:00:00.000Z", syncStatus := "idle",
                    recordCount := 0, lastSyncDurationMs := none, lastError := none } }

/-- Remote environment for the C2 witness run. -/
def c2Env : SyncEnv :=
  { repos := c2Repos, probe := c2Probe, tree := c2Tree,
    fetchFile := fun _ => .error "unused", recentCommits := fun _ => [],
    changedFiles := [], firstCommitDate := fun _ => none,
    hoursSinceLastSyncLt1 := false, nowIso := "2026-01-01T00:00:00.000Z",
    durationMs := 5 }

/-- Single configured repository for the sync-run witnesses. -/
def syncRepo : RepoCfg :=
  { owner := "m", repo := "docs", branch := "main", basePath := "articles" }

/-- Tree listing answered for `syncRepo`: three what's-new documents
and one unrelated page. -/
def syncTreeItems : List GitHubTreeItem :=
  [{ path := "articles/whats-new-a.md", type := "blob", sha := "aa" },
   { path := "articles/whats-new-b.md", type := "blob", sha := "bb2" },
   { path := "articles/whats-new-c.md", type := "blob", sha := "cc" },
   { path := "articles/setup.md", type := "blob", sha := "dd" }]

/-- Candidate descriptor the tree scan builds for the first document. -/
def syncFileA : WhatsNewFile :=
  { path := "articles/whats-new-a.md",
    url := "https://github.com/m/docs/blob/main/articles/whats-new-a.md",
    rawUrl := "https://raw.githubusercontent.com/m/docs/main/articles/whats-new-a.md",
    sha := "aa" }

/-- Candidate descriptor for the second document (changed content). -/
def syncFileB : WhatsNewFile :=
  { path := "articles/whats-new-b.md",
    url := "https://github.com/m/docs/blob/main/articles/whats-new-b.md",
    rawUrl := "https://raw.githubusercontent.com/m/docs/main/articles/whats-new-b.md",
    sha := "bb2" }

/-- Candidate descriptor for the third document (no stored record). -/
def syncFileC : WhatsNewFile :=
  { path := "articles/whats-new-c.md",
    url := "https://github.com/m/docs/blob/main/articles/whats-new-c.md",
    rawUrl := "https://raw.githubusercontent.com/m/docs/main/articles/whats-new-c.md",
    sha := "cc" }

/-- The incremental result of the sync-run witness environment. -/
def syncInc : IncrementalResult :=
  { files := [syncFileA, syncFileB, syncFileC],
    newShaMap := [("m/docs", "tip2")],
    changedRepos := ["m/docs"], skippedRepos := [], treesFetched := ["m/docs"] }

/-- Stored row for the first document, content identifier unchanged. -/
def syncRowA : D365Update :=
  { filePath := "articles/whats-new-a.md", title := "A", description := none,
    product := "Dynamics 365", version := none, releaseDate := none,
    previewDate := none, gaDate := none, commitSha := some "aa",
    commitDate := none, firstCommitDate := none, fileUrl := "fa", rawContentUrl := "ra" }

/-- Stored row for the second document, stale content identifier. -/
def syncRowB : D365Update :=
  { filePath := "articles/whats-new-b.md", title := "B", description := none,
    product := "Dynamics 365", version := none, releaseDate := none,
    previewDate := none, gaDate := none, commitSha := some "bb",
    commitDate := none, firstCommitDate := none, fileUrl := "fb", rawContentUrl := "rb" }

/-- Store for the sync-run witnesses. -/
def c4Db : DB :=
  { updates := [syncRowA, syncRowB], commits := [], repoShas := [("m/docs", "tip1")],
    checkpoint := { lastSync := "2026-01-01T00:00:00.000Z", syncStatus := "idle",
                    recordCount := 2, lastSyncDurationMs := some 100, lastError := none } }

/-- Parsed record the fetch oracle answers for the second document. -/
def c4Parsed : D365Update :=
  { filePath := "articles/whats-new-b.md", title := "B new", description := some "d",
    product := "Dynamics 365", version := some "10.0.41", releaseDate := some "03/01/2026",
    previewDate := none, gaDate := none, commitSha := none, commitDate := none,
    firstCommitDate := none, fileUrl := "fb2", rawContentUrl := "rb2" }

/-- Remote environment for the sync-run witnesses: one repository whose
tip moved; fetching the second document succeeds, fetching the third
returns a malformed response. -/
def c4Env : SyncEnv :=
  { repos := [syncRepo], probe := fun _ => some "tip2",
    tree := fun _ => .ok syncTreeItems,
    fetchFile := fun u =>
      if u == syncFileB.rawUrl then .ok c4Parsed else .error "malformed response",
    recentCommits := fun _ => [], changedFiles := [], firstCommitDate := fun _ => none,
    hoursSinceLastSyncLt1 := false, nowIso := "2026-02-01T00:00:00.000Z",
    durationMs := 42 }

/-- Environment whose tree listing fails, driving the run into the
structural-failure path (C10 witness data). -/
def c10Env : SyncEnv :=
  { c4Env with tree := fun _ => .error "GitHub API error: 500" }

/-- Row with an out-of-range declared release date but an in-range
commit date (C5 counterexample data). -/
def c5Row : D365Update :=
  { filePath := "p", title := "t", description := none, product := "X",
    version := none, releaseDate := some "01/15/2020", previewDate := none,
    gaDate := none, commitSha := none, commitDate := some "2024-06-01T00:00:00Z",
    firstCommitDate := none, fileUrl := "f", rawContentUrl := "r" }

/-- Date filter that `c5Row`'s release date fails but its commit date
passes (C5 counterexample data). -/
def c5Filters : SearchFilters := { dateFrom := some "2024-01-01" }

/-- Full-text oracle accepting everything (unused: no query filter). -/
def c5Fts : String → D365Update → Bool := fun _ _ => true

/-- Builder for the C5 witness rows: product `X`, distinct paths and
commit dates. -/
def c5MkRow (p cd : String) : D365Update :=
  { filePath := p, title := "t", description := none, product := "X",
    version := none, releaseDate := none, previewDate := none, gaDate := none,
    commitSha := none, commitDate := some cd, firstCommitDate := none,
    fileUrl := "f", rawContentUrl := "r" }

/-- Five matching rows (C5 witness data, the spec's limit scenario). -/
def c5WitRows : List D365Update :=
  [c5MkRow "p1" "2024-01-01", c5MkRow "p2" "2024-02-01", c5MkRow "p3" "2024-03-01",
   c5MkRow "p4" "2024-04-01", c5MkRow "p5" "2024-05-01"]

/-- Product filter with `limit = 2` (C5 witness data). -/
def c5WitFilters : SearchFilters := { product := some "X", limit := some 2 }

/-! ## Claim C1 -/

/-- C1: for every stored document row whose first-observed date
(`first_commit_date`) is non-null, an `upsertUpdate` with the same path
leaves that date unchanged — an incoming null never erases it and an
incoming non-null value never overwrites it — and a
`updateFirstCommitDate` backfill leaves it unchanged as well; when the
stored date is null, an upsert with the same path sets it to the
incoming value (hence sets it whenever that value is non-null), and a
backfill whose path pattern matches sets it. -/
theorem c1_first_observed_monotonic
    (rows : List D365Update) (u : D365Update) (p fcd : String) (i : Nat)
    (r : D365Update) (hr : rows[i]? = some r) :
    (∀ d, r.firstCommitDate = some d →
      ∃ r2, (upsertUpdate rows u)[i]? = some r2 ∧ r2.filePath = r.filePath ∧
        r2.firstCommitDate = some d) ∧
    (r.firstCommitDate = none → r.filePath = u.filePath →
      ∃ r2, (upsertUpdate rows u)[i]? = some r2 ∧ r2.firstCommitDate = u.firstCommitDate) ∧
    (∀ d, r.firstCommitDate = some d →
      ∃ r2, (updateFirstCommitDate rows p fcd)[i]? = some r2 ∧
        r2.firstCommitDate = some d) ∧
    (r.firstCommitDate = none → strEndsWith r.filePath p = true →
      ∃ r2, (updateFirstCommitDate rows p fcd)[i]? = some r2 ∧
        r2.firstCommitDate = some fcd) := by
  obtain ⟨hi, hget⟩ := List.getElem?_eq_some_iff.mp hr
  have hmem : r ∈ rows := hget ▸ List.getElem_mem hi
  refine ⟨?_, ?_, ?_, ?_⟩
  · intro d hd
    unfold upsertUpdate
    split
    · refine ⟨if r.filePath == u.filePath then applyUpdateRow r u else r, ?_, ?_⟩
      · simp [List.getElem?_map, hr]
      · split
        · simp [applyUpdateRow, hd]
        · exact ⟨rfl, hd⟩
    · exact ⟨r, by rw [List.getElem?_append_left hi]; exact hr, rfl, hd⟩
  · intro hnone hpath
    unfold upsertUpdate
    split
    · refine ⟨applyUpdateRow r u, ?_, ?_⟩
      · simp [List.getElem?_map, hr, hpath]
      · simp [applyUpdateRow, hnone, Option.orElse]
    · rename_i hany
      exact absurd (List.any_eq_true.mpr ⟨r, hmem, by simp [hpath]⟩) hany
  · intro d hd
    refine ⟨r, ?_, hd⟩
    unfold updateFirstCommitDate
    simp [List.getElem?_map, hr, hd]
  · intro hnone hends
    refine ⟨{ r with firstCommitDate := some fcd }, ?_, rfl⟩
    unfold updateFirstCommitDate
    simp [List.getElem?_map, hr, hends, hnone]

/-- Witness for C1 at a concrete store: one stored row with a set date,
upserted against by an incoming record with the same path and a null
first-observed date; the stored date survives. -/
theorem c1_first_observed_monotonic_witness :
    ∃ r2, (upsertUpdate [c1Row] c1Incoming)[0]? = some r2 ∧
      r2.filePath = c1Row.filePath ∧ r2.firstCommitDate = some "2020-01-01" :=
  (c1_first_observed_monotonic [c1Row] c1Incoming "x" "2021-01-01" 0 c1Row rfl).1
    "2020-01-01" rfl

/-! ## Claim C3 -/

/-- Counterexample to C3: on an input whose first attempt is a
quota-exhausted 403 response — which the loop turns into the rate-limit
error carrying the reset time — `githubFetch` does not fail immediately;
it sleeps once and retries, and the whole call succeeds on the second
attempt.  So a 403 does not make the call "fail immediately without any
retry attempt". -/
theorem c3_counterexample :
    attemptResult (c3Outcomes 1) = .error (.rateLimit (some "1700000000")) ∧
    githubFetch c3Outcomes = (.ok 200, [RETRY_DELAY_MS * 1], 2) := by
  exact ⟨rfl, rfl⟩

/-- C3 (amended): a quota-exhausted 403 response produces an error
carrying the reset time parsed from the headers, but it is retried
exactly like any other failure: a 403 on a non-final attempt leads to a
further attempt, and only a 403 on the final attempt surfaces the
rate-limit error (with its reset time) to the caller. -/
theorem c3_rate_limit_retried (outcomes : Nat → FetchOutcome) (reset : Option String) :
    (outcomes 1 = .response 403 reset → 2 ≤ (githubFetch outcomes).snd.snd) ∧
    (∀ e1 e2, attemptResult (outcomes 1) = .error e1 →
      attemptResult (outcomes 2) = .error e2 → outcomes 3 = .response 403 reset →
      githubFetch outcomes =
        (.error (.rateLimit reset), [RETRY_DELAY_MS * 1, RETRY_DELAY_MS * 2], 3)) := by
  constructor
  · intro h1
    have ha : attemptResult (outcomes 1) = .error (.rateLimit reset) := by
      simp [h1, attemptResult]
    rcases h2 : attemptResult (outcomes 2) with e2 | s2
    · rcases h3 : attemptResult (outcomes 3) with e3 | s3 <;>
        simp [githubFetch, githubFetchLoop, MAX_RETRIES, ha, h2, h3]
    · simp [githubFetch, githubFetchLoop, MAX_RETRIES, ha, h2]
  · intro e1 e2 h1 h2 h3
    have ha : attemptResult (outcomes 3) = .error (.rateLimit reset) := by
      simp [h3, attemptResult]
    simp [githubFetch, githubFetchLoop, MAX_RETRIES, h1, h2, ha]

/-- Witness for C3 (amended): with every attempt quota-exhausted, the
call makes all three attempts and surfaces the rate-limit error with
the reset time of the final attempt. -/
theorem c3_rate_limit_retried_witness :
    githubFetch c3AllQuota =
      (.error (.rateLimit (some "1700000000")), [RETRY_DELAY_MS * 1, RETRY_DELAY_MS * 2], 3) :=
  (c3_rate_limit_retried c3AllQuota (some "1700000000")).2
    (.rateLimit (some "1700000000")) (.rateLimit (some "1700000000")) rfl rfl rfl

/-! ## Claim C7 -/

/-- C7: the remote client makes at most `MAX_RETRIES = 3` attempts; a
first-attempt success returns at once with no delay; each failed
non-final attempt `n` is followed by a `RETRY_DELAY_MS * n` wait, the
delays growing linearly; and when every attempt fails, the error of the
final (third) attempt is surfaced to the caller. -/
theorem c7_retry_envelope (outcomes : Nat → FetchOutcome) :
    (githubFetch outcomes).snd.snd ≤ MAX_RETRIES ∧
    (∀ s, attemptResult (outcomes 1) = .ok s →
      githubFetch outcomes = (.ok s, [], 1)) ∧
    (∀ e1 s, attemptResult (outcomes 1) = .error e1 →
      attemptResult (outcomes 2) = .ok s →
      githubFetch outcomes = (.ok s, [RETRY_DELAY_MS * 1], 2)) ∧
    (∀ e1 e2 e3, attemptResult (outcomes 1) = .error e1 →
      attemptResult (outcomes 2) = .error e2 → attemptResult (outcomes 3) = .error e3 →
      githubFetch outcomes =
        (.error e3, [RETRY_DELAY_MS * 1, RETRY_DELAY_MS * 2], 3)) := by
  refine ⟨?_, ?_, ?_, ?_⟩
  · rcases h1 : attemptResult (outcomes 1) with e1 | s1
    · rcases h2 : attemptResult (outcomes 2) with e2 | s2
      · rcases h3 : attemptResult (outcomes 3) with e3 | s3 <;>
          simp [githubFetch, githubFetchLoop, MAX_RETRIES, h1, h2, h3]
      · simp [githubFetch, githubFetchLoop, MAX_RETRIES, h1, h2]
    · simp [githubFetch, githubFetchLoop, MAX_RETRIES, h1]
  · intro s h1
    simp [githubFetch, githubFetchLoop, MAX_RETRIES, h1]
  · intro e1 s h1 h2
    simp [githubFetch, githubFetchLoop, MAX_RETRIES, h1, h2]
  · intro e1 e2 e3 h1 h2 h3
    simp [githubFetch, githubFetchLoop, MAX_RETRIES, h1, h2, h3]

/-- Witness for C7: with all three attempts failing at the transport
level, the call stops after 3 attempts, waited 1000 ms then 2000 ms,
and surfaces the third attempt's error. -/
theorem c7_retry_envelope_witness :
    githubFetch c7Outcomes =
      (.error (.transport "3"), [RETRY_DELAY_MS * 1, RETRY_DELAY_MS * 2], 3) :=
  (c7_retry_envelope c7Outcomes).2.2.2
    (.transport "1") (.transport "2") (.transport "3") rfl rfl rfl

/-! ## Claim C8 -/

/-- Counterexample to C8: in the batch `[1, 2, 3]` under `c8f`, units
`1` and `3` each succeed on their own, yet because unit `2` fails the
caller of `parallelLimit` receives only the single rejection
`.error "boom"` — not a per-unit result or error for every unit. -/
theorem c8_counterexample :
    parallelLimit 5 c8f [1, 2, 3] = .error "boom" ∧
    c8f 1 = .ok 10 ∧ c8f 3 = .ok 30 :=
  ⟨rfl, rfl, rfl⟩

/-- C8 (amended): each unit's outcome is computed from its own item
alone, so one unit's failure does not change any other unit's outcome;
when every unit succeeds the caller receives the complete,
input-aligned result list; when some unit fails the caller instead
receives a single error, and that error is the outcome of one of the
units (never fabricated) — per-unit results are not delivered in that
case. -/
theorem c8_parallel_delivery {α β ε : Type} (limit : Nat) (f : α → Except ε β)
    (items : List α) :
    (∀ rs, parallelLimit limit f items = .ok rs → items.map f = rs.map Except.ok) ∧
    ((∀ a ∈ items, (f a).isOk = true) → ∃ rs, parallelLimit limit f items = .ok rs) ∧
    (∀ e, parallelLimit limit f items = .error e → .error e ∈ items.map f) := by
  induction items with
  | nil =>
    refine ⟨?_, fun _ => ⟨[], rfl⟩, ?_⟩
    · intro rs h
      simp only [parallelLimit, Except.ok.injEq] at h
      simp [← h]
    · intro e h
      simp [parallelLimit] at h
  | cons a as ih =>
    obtain ⟨ih1, ih2, ih3⟩ := ih
    refine ⟨?_, ?_, ?_⟩
    · intro rs h
      rcases ha : f a with e1 | b
      · simp [parallelLimit, ha] at h
      · rcases hrec : parallelLimit limit f as with e2 | rs2
        · simp [parallelLimit, ha, hrec] at h
        · simp only [parallelLimit, ha, hrec, Except.ok.injEq] at h
          simp [← h, List.map_cons, ha, ih1 rs2 hrec]
    · intro hall
      rcases ha : f a with e1 | b
      · have := hall a (List.mem_cons_self a as)
        rw [ha] at this
        simp [Except.isOk, Except.toBool] at this
      · obtain ⟨rs2, hrs2⟩ := ih2 fun x hx => hall x (List.mem_cons_of_mem a hx)
        exact ⟨b :: rs2, by simp [parallelLimit, ha, hrs2]⟩
    · intro e h
      rcases ha : f a with e1 | b
      · simp only [parallelLimit, ha, Except.error.injEq] at h
        simp [List.map_cons, ha, h]
      · rcases hrec : parallelLimit limit f as with e2 | rs2
        · simp only [parallelLimit, ha, hrec, Except.error.injEq] at h
          exact List.mem_cons_of_mem _ (ih3 e (by rw [hrec, h]))
        · simp [parallelLimit, ha, hrec] at h

/-- Witness for C8 (amended): a batch whose units all succeed yields a
full result list. -/
theorem c8_parallel_delivery_witness :
    ∃ rs, parallelLimit 5 c8f [1, 3] = .ok rs :=
  (c8_parallel_delivery 5 c8f [1, 3]).2.1 (by decide)

/-! ## Helper lemmas for the repository diff check -/

/-- A key no probe answers has no entry in the probed sha map. -/
theorem lookup_getAllShas_of_probe_none (repos : List RepoCfg)
    (probe : String → Option String) (k : String) (hp : probe k = none) :
    (getAllRepositoryLatestShas repos probe).lookup k = none := by
  induction repos with
  | nil => rfl
  | cons r rs ih =>
    unfold getAllRepositoryLatestShas
    rw [List.filterMap_cons]
    rcases hpr : probe (repoKey r) with _ | s
    · simp only [Option.map_none']
      exact ih
    · simp only [Option.map_some']
      cases hbeq : k == repoKey r with
      | false =>
        rw [List.lookup_cons]
        simp only [hbeq]
        exact ih
      | true =>
        have hkeq : k = repoKey r := by simpa using hbeq
        rw [← hkeq, hp] at hpr
        exact absurd hpr (by simp)

/-- For a configured repository key, the probed sha map of
`getAllRepositoryLatestShas` answers exactly what the probe answered. -/
theorem lookup_getAllShas (repos : List RepoCfg) (probe : String → Option String)
    (k : String) (hk : repos.any (fun r => repoKey r == k) = true) :
    (getAllRepositoryLatestShas repos probe).lookup k = probe k := by
  induction repos with
  | nil => simp at hk
  | cons r rs ih =>
    unfold getAllRepositoryLatestShas
    rw [List.filterMap_cons]
    cases hbeq : k == repoKey r with
    | true =>
      have hkeq : k = repoKey r := by simpa using hbeq
      rcases hpr : probe (repoKey r) with _ | s
      · simp only [Option.map_none']
        rw [hkeq, hpr]
        exact lookup_getAllShas_of_probe_none rs probe (repoKey r) hpr
      · simp only [Option.map_some']
        simp [List.lookup_cons, hbeq, hkeq, hpr]
    | false =>
      have hne : k ≠ repoKey r := beq_eq_false_iff_ne.mp hbeq
      have hk' : rs.any (fun x => repoKey x == k) = true := by
        rcases List.any_eq_true.mp hk with ⟨x, hx, hxk⟩
        cases List.mem_cons.mp hx with
        | inl hxr =>
          have : repoKey r = k := by
            have := beq_iff_eq.mp hxk
            rw [hxr] at this
            exact this
          exact absurd this.symm hne
        | inr hxs => exact List.any_eq_true.mpr ⟨x, hxs, hxk⟩
      rcases hpr : probe (repoKey r) with _ | s
      · simp only [Option.map_none']
        exact ih hk'
      · simp only [Option.map_some']
        rw [List.lookup_cons]
        simp only [hbeq]
        exact ih hk'

/-- The change test holds exactly when no revision is stored or the
stored revision differs from the probed one. -/
theorem repoChanged_iff (prev cur : Option String) :
    repoChanged prev cur = true ↔ (prev = none ∨ prev ≠ cur) := by
  cases prev with
  | none => simp [repoChanged]
  | some p =>
    cases cur with
    | none => simp [repoChanged]
    | some c =>
      constructor
      · intro h
        refine Or.inr fun he => ?_
        rw [← he] at h
        simp [repoChanged] at h
      · rintro (h | h)
        · exact absurd h (by simp)
        · have hb : (some c == some p) = false :=
            beq_eq_false_iff_ne.mpr fun hc => h (by rw [hc])
          simp [repoChanged, hb]

/-- The change test fails exactly when the stored and probed revisions
are the same non-null sha. -/
theorem repoChanged_false_iff (prev cur : Option String) :
    repoChanged prev cur = false ↔ ∃ s, prev = some s ∧ cur = some s := by
  rw [← Bool.not_eq_true, repoChanged_iff]
  push_neg
  constructor
  · rintro ⟨h1, h2⟩
    cases prev with
    | none => exact absurd rfl h1
    | some p => exact ⟨p, rfl, h2.symm⟩
  · rintro ⟨s, hs1, hs2⟩
    exact ⟨by simp [hs1], by rw [hs1, hs2]⟩

/-- Membership in the key image of a key-determined filter. -/
theorem mem_filter_map_key (repos : List RepoCfg) (q : String → Bool) (k : String) :
    (k ∈ (repos.filter fun r => q (repoKey r)).map repoKey) ↔
      (k ∈ repos.map repoKey ∧ q k = true) := by
  constructor
  · rintro h
    rcases List.mem_map.mp h with ⟨r, hr, hk⟩
    rcases List.mem_filter.mp hr with ⟨hmem, hq⟩
    exact ⟨List.mem_map.mpr ⟨r, hmem, hk⟩, hk ▸ hq⟩
  · rintro ⟨hmem, hq⟩
    rcases List.mem_map.mp hmem with ⟨r, hr, hk⟩
    exact List.mem_map.mpr ⟨r, List.mem_filter.mpr ⟨hr, hk ▸ hq⟩, hk⟩

/-- A successful incremental scan classifies the configured repositories
by the change test and issues tree listings exactly for the changed
ones. -/
theorem incremental_classification (repos : List RepoCfg)
    (tree : String → Except String (List GitHubTreeItem))
    (probe : String → Option String) (prev : List (String × String))
    (inc : IncrementalResult)
    (hinc : getWhatsNewFilesIncremental repos tree probe prev = .ok inc) :
    inc.changedRepos = (repos.filter fun r =>
      repoChanged (prev.lookup (repoKey r))
        ((getAllRepositoryLatestShas repos probe).lookup (repoKey r))).map repoKey ∧
    inc.skippedRepos = (repos.filter fun r =>
      !repoChanged (prev.lookup (repoKey r))
        ((getAllRepositoryLatestShas repos probe).lookup (repoKey r))).map repoKey ∧
    inc.treesFetched = inc.changedRepos := by
  simp only [getWhatsNewFilesIncremental] at hinc
  split at hinc
  · rename_i hempty
    simp only [Except.ok.injEq] at hinc
    rw [← hinc]
    rw [List.isEmpty_iff] at hempty
    simp [hempty]
  · split at hinc
    · exact absurd hinc (by simp)
    · simp only [Except.ok.injEq] at hinc
      rw [← hinc]
      exact ⟨rfl, rfl, rfl⟩

/-- Membership in the key image of a key-determined filter of the
repository list. -/
theorem mem_keyfilter_iff (repos : List RepoCfg) (q : String → Bool) (r : RepoCfg)
    (hr : r ∈ repos) :
    (repoKey r ∈ (repos.filter fun x => q (repoKey x)).map repoKey) ↔
      q (repoKey r) = true := by
  constructor
  · intro h
    rcases List.mem_map.mp h with ⟨x, hx, hkx⟩
    rcases List.mem_filter.mp hx with ⟨_, hq⟩
    rw [← hkx]
    exact hq
  · intro hq
    exact List.mem_map.mpr ⟨r, List.mem_filter.mpr ⟨hr, hq⟩, rfl⟩

/-! ## Claim C2 -/

/-- C2: in a non-forced sync, the incremental scan probes every
configured repository (`lookup` of the probed map answers the probe);
a repository is classified as changed exactly when the stored revision
map has no entry for its key or the stored entry differs from the
probed tip revision, and as skipped exactly when the stored entry
equals the probed tip; tree-listing requests are issued exactly for the
changed repositories (hence none, and no document fetch, for a source
whose tip revision equals the last recorded value); and the non-forced
sync run issues exactly those tree listings. -/
theorem c2_repo_diff_gating (db : DB) (env : SyncEnv) (opts : SyncOptions)
    (inc : IncrementalResult)
    (hforce : opts.force.getD false = false)
    (hrecent : env.hoursSinceLastSyncLt1 = false)
    (hinc : getWhatsNewFilesIncremental env.repos env.tree env.probe db.repoShas = .ok inc) :
    inc.treesFetched = inc.changedRepos ∧
    (∀ r ∈ env.repos,
      (getAllRepositoryLatestShas env.repos env.probe).lookup (repoKey r) =
        env.probe (repoKey r) ∧
      (repoKey r ∈ inc.changedRepos ↔
        (db.repoShas.lookup (repoKey r) = none ∨
         db.repoShas.lookup (repoKey r) ≠ env.probe (repoKey r))) ∧
      (repoKey r ∈ inc.skippedRepos ↔
        ∃ s, db.repoShas.lookup (repoKey r) = some s ∧
          env.probe (repoKey r) = some s)) ∧
    (syncFromGitHub db env opts).snd.snd.treesFetched = inc.treesFetched := by
  obtain ⟨hch, hsk, htf⟩ :=
    incremental_classification env.repos env.tree env.probe db.repoShas inc hinc
  refine ⟨htf, fun r hr => ?_, ?_⟩
  · have hany : env.repos.any (fun x => repoKey x == repoKey r) = true :=
      List.any_eq_true.mpr ⟨r, hr, by simp⟩
    have hcur := lookup_getAllShas env.repos env.probe (repoKey r) hany
    refine ⟨hcur, ?_, ?_⟩
    · have h1 : (repoKey r ∈ inc.changedRepos) ↔
          (repoChanged (db.repoShas.lookup (repoKey r))
            ((getAllRepositoryLatestShas env.repos env.probe).lookup (repoKey r)) = true) := by
        rw [hch]
        exact mem_keyfilter_iff env.repos
          (fun k => repoChanged (db.repoShas.lookup k)
            ((getAllRepositoryLatestShas env.repos env.probe).lookup k)) r hr
      rw [hcur, repoChanged_iff] at h1
      exact h1
    · have h2 : (repoKey r ∈ inc.skippedRepos) ↔
          ((!repoChanged (db.repoShas.lookup (repoKey r))
            ((getAllRepositoryLatestShas env.repos env.probe).lookup (repoKey r))) = true) := by
        rw [hsk]
        exact mem_keyfilter_iff env.repos
          (fun k => !repoChanged (db.repoShas.lookup k)
            ((getAllRepositoryLatestShas env.repos env.probe).lookup k)) r hr
      rw [hcur] at h2
      rw [h2, Bool.not_eq_true', repoChanged_false_iff]
  · have hstep : listingStep env false db.repoShas =
        .ok (inc.files, some inc.newShaMap, inc.changedRepos.isEmpty, inc.treesFetched) := by
      unfold listingStep getRepositoryShaMap
      simp [hinc]
    simp only [syncFromGitHub, hforce, hrecent, Bool.not_false, Bool.and_false,
      Bool.false_and, if_false]
    simp only [hstep]
    cases hce : inc.changedRepos.isEmpty <;> simp [hce]

/-- Witness for C2 at the spec's three-repository scenario: two stored
tips match the probes, one differs; exactly the changed repository gets
a tree listing. -/
theorem c2_repo_diff_gating_witness :
    c2Inc.treesFetched = c2Inc.changedRepos ∧
    (repoKey c2Repo3 ∈ c2Inc.changedRepos ↔
      (c2Prev.lookup (repoKey c2Repo3) = none ∨
       c2Prev.lookup (repoKey c2Repo3) ≠ c2Probe (repoKey c2Repo3))) ∧
    (repoKey c2Repo1 ∈ c2Inc.skippedRepos ↔
      ∃ s, c2Prev.lookup (repoKey c2Repo1) = some s ∧
        c2Probe (repoKey c2Repo1) = some s) := by
  have h := c2_repo_diff_gating c2Db c2Env { } c2Inc rfl rfl rfl
  exact ⟨h.1, (h.2.1 c2Repo3 (by decide)).2.1, (h.2.1 c2Repo1 (by decide)).2.2⟩

/-! ## Helper lemmas for the processing loop -/

/-- The processing loop counts one success per candidate whose fetch
succeeds and one error per candidate whose fetch fails, and upserts
exactly the paths of the successful candidates, independent of the
store it starts from. -/
theorem processFiles_counts (env : SyncEnv) (rows : List D365Update)
    (files : List WhatsNewFile) :
    (processFiles env rows files).updatesCount =
      files.countP (fun f => (env.fetchFile f.rawUrl).isOk) ∧
    (processFiles env rows files).errorCount =
      files.countP (fun f => !(env.fetchFile f.rawUrl).isOk) ∧
    (processFiles env rows files).upsertedPaths =
      (files.filter fun f => (env.fetchFile f.rawUrl).isOk).map (fun f => f.path) := by
  induction files generalizing rows with
  | nil => exact ⟨rfl, rfl, rfl⟩
  | cons f fs ih =>
    rcases hf : env.fetchFile f.rawUrl with e | u
    · have h := ih rows
      simp only [processFiles, hf]
      refine ⟨?_, ?_, ?_⟩
      · rw [h.1, List.countP_cons]
        simp [hf, Except.isOk, Except.toBool]
      · rw [h.2.1, List.countP_cons]
        simp [hf, Except.isOk, Except.toBool]
      · rw [h.2.2, List.filter_cons]
        simp [hf, Except.isOk, Except.toBool]
    · have h := ih (upsertUpdate rows { u with commitSha := some f.sha })
      simp only [processFiles, hf]
      refine ⟨?_, ?_, ?_⟩
      · rw [h.1, List.countP_cons]
        simp [hf, Except.isOk, Except.toBool]
      · rw [h.2.1, List.countP_cons]
        simp [hf, Except.isOk, Except.toBool]
      · rw [h.2.2, List.filter_cons]
        simp [hf, Except.isOk, Except.toBool]

/-! ## Claim C4 -/

/-- C4: when per-document fetches fail during a sync run that otherwise
completes, the run still returns `success = true`; the reported
document count equals the number of candidates whose fetch succeeded
(it excludes the failed ones); the checkpoint transitions to `idle`;
and the checkpoint's error field carries the `<n> files failed` summary
exactly when some candidate failed.  In particular a per-document
failure never flips the run status to error. -/
theorem c4_partial_failure (db : DB) (env : SyncEnv) (opts : SyncOptions)
    (files : List WhatsNewFile) (m : Option (List (String × String)))
    (ce : Bool) (tf : List String)
    (hnotRecent : (!(opts.force.getD false) && env.hoursSinceLastSyncLt1) = false)
    (hlist : listingStep env (opts.force.getD false) db.repoShas = .ok (files, m, ce, tf))
    (hnotEmpty : (!(opts.force.getD false) && ce) = false) :
    (syncFromGitHub db env opts).snd.fst.success = true ∧
    (syncFromGitHub db env opts).snd.fst.updatesCount =
      ((syncFromGitHub db env opts).snd.snd.rawFetched).countP
        (fun f => (env.fetchFile f.rawUrl).isOk) ∧
    (syncFromGitHub db env opts).fst.checkpoint.syncStatus = "idle" ∧
    (syncFromGitHub db env opts).fst.checkpoint.lastError =
      (if 0 < ((syncFromGitHub db env opts).snd.snd.rawFetched).countP
          (fun f => !(env.fetchFile f.rawUrl).isOk) then
        some (toString (((syncFromGitHub db env opts).snd.snd.rawFetched).countP
          (fun f => !(env.fetchFile f.rawUrl).isOk)) ++ " files failed")
      else none) := by
  simp only [syncFromGitHub, hnotRecent, Bool.false_eq_true, if_false, hlist, hnotEmpty]
  have hcnt := processFiles_counts env db.updates
    (gateFiles (opts.force.getD false) (getFileShaMap db.updates).isEmpty
      (getFileShaMap db.updates) (opts.maxFiles.getD 500) files)
  refine ⟨?_, ?_, ?_, ?_⟩
  · trivial
  · exact hcnt.1
  · simp [updateSyncCheckpoint]
  · simp only [updateSyncCheckpoint, Option.getD_some]
    rw [hcnt.2.1]

/-- Witness for C4: with one of two fetched candidates failing, the run
still succeeds and the checkpoint lands on `idle`. -/
theorem c4_partial_failure_witness :
    (syncFromGitHub c4Db c4Env { }).snd.fst.success = true ∧
    (syncFromGitHub c4Db c4Env { }).fst.checkpoint.syncStatus = "idle" := by
  have h := c4_partial_failure c4Db c4Env { } [syncFileA, syncFileB, syncFileC]
    (some [("m/docs", "tip2")]) false ["m/docs"] (by rfl) (by rfl) (by rfl)
  exact ⟨h.1, h.2.2.1⟩

/-! ## Claim C10 -/

/-- C10: when a sync run ends through the top-level structural-failure
path (the candidate-listing step fails), the store's tables are
untouched and the checkpoint is modified only in its sync status (set
to `error`) and last-error message; the last-sync timestamp, record
count and last-run duration keep their previous values; and the
returned result is `success = false` with zero update and commit
counts, carrying the error message. -/
theorem c10_structural_failure_frame (db : DB) (env : SyncEnv) (opts : SyncOptions)
    (e : String)
    (hnotRecent : (!(opts.force.getD false) && env.hoursSinceLastSyncLt1) = false)
    (herr : listingStep env (opts.force.getD false) db.repoShas = .error e) :
    (syncFromGitHub db env opts).fst.updates = db.updates ∧
    (syncFromGitHub db env opts).fst.commits = db.commits ∧
    (syncFromGitHub db env opts).fst.repoShas = db.repoShas ∧
    (syncFromGitHub db env opts).fst.checkpoint =
      { db.checkpoint with syncStatus := "error", lastError := some e } ∧
    (syncFromGitHub db env opts).snd.fst =
      { success := false, updatesCount := 0, commitsCount := 0,
        durationMs := env.durationMs, error := some e } := by
  simp only [syncFromGitHub, hnotRecent, Bool.false_eq_true, if_false, herr]
  refine ⟨?_, ?_, ?_, ?_, ?_⟩
  · trivial
  · trivial
  · trivial
  · simp [updateSyncCheckpoint]
  · simp [updateSyncCheckpoint]

/-- Witness for C10: a failing tree listing stamps the checkpoint
`error` while preserving its other fields, and the run reports
failure. -/
theorem c10_structural_failure_frame_witness :
    (syncFromGitHub c4Db c10Env { }).fst.checkpoint =
      { c4Db.checkpoint with
        syncStatus := "error", lastError := some "GitHub API error: 500" } ∧
    (syncFromGitHub c4Db c10Env { }).snd.fst.success = false := by
  have h := c10_structural_failure_frame c4Db c10Env { } "GitHub API error: 500"
    (by rfl) (by rfl)
  exact ⟨h.2.2.2.1, by rw [h.2.2.2.2]⟩

/-! ## Claim C6 -/

/-- C6: in a non-forced sync against a store whose sha map is non-empty
(not a first sync), a candidate file whose stored content identifier
equals the identifier reported in the current tree gets no raw-content
fetch; and every candidate that is fetched either has no stored
identifier for its path or a stored identifier that differs from the
tree's. -/
theorem c6_file_level_gating (db : DB) (env : SyncEnv) (opts : SyncOptions)
    (inc : IncrementalResult)
    (hforce : opts.force.getD false = false)
    (hrecent : env.hoursSinceLastSyncLt1 = false)
    (hinc : getWhatsNewFilesIncremental env.repos env.tree env.probe db.repoShas = .ok inc)
    (hne : inc.changedRepos.isEmpty = false)
    (hmap : (getFileShaMap db.updates).isEmpty = false) :
    (∀ f ∈ inc.files, (getFileShaMap db.updates).lookup f.path = some f.sha →
      f ∉ (syncFromGitHub db env opts).snd.snd.rawFetched) ∧
    (∀ f ∈ (syncFromGitHub db env opts).snd.snd.rawFetched,
      (getFileShaMap db.updates).lookup f.path = none ∨
      ∃ s, (getFileShaMap db.updates).lookup f.path = some s ∧ s ≠ f.sha) := by
  have hstep : listingStep env false db.repoShas =
      .ok (inc.files, some inc.newShaMap, inc.changedRepos.isEmpty, inc.treesFetched) := by
    unfold listingStep getRepositoryShaMap
    simp [hinc]
  have hraw : (syncFromGitHub db env opts).snd.snd.rawFetched =
      gateFiles false false (getFileShaMap db.updates) (opts.maxFiles.getD 500) inc.files := by
    simp [syncFromGitHub, hforce, hrecent, hstep, hne, hmap]
  have hpred : ∀ f ∈ (syncFromGitHub db env opts).snd.snd.rawFetched,
      (getFileShaMap db.updates).lookup f.path ≠ some f.sha := by
    intro f hmem
    rw [hraw] at hmem
    have hfil : f ∈ inc.files.filter (gatePred false false (getFileShaMap db.updates)) :=
      (List.take_sublist _ _).subset hmem
    have hg := (List.mem_filter.mp hfil).2
    simpa [gatePred] using hg
  refine ⟨?_, ?_⟩
  · intro f _ hlook hmem
    exact hpred f hmem (by rw [hlook])
  · intro f hmem
    rcases hcase : (getFileShaMap db.updates).lookup f.path with _ | s
    · exact Or.inl rfl
    · refine Or.inr ⟨s, rfl, fun hss => ?_⟩
      exact hpred f hmem (by rw [hcase, hss])

/-- Witness for C6: the candidate whose stored identifier equals the
tree's gets no raw-content fetch in the witness run. -/
theorem c6_file_level_gating_witness :
    syncFileA ∉ (syncFromGitHub c4Db c4Env { }).snd.snd.rawFetched := by
  have h := c6_file_level_gating c4Db c4Env { } syncInc (by rfl) (by rfl) (by rfl)
    (by rfl) (by rfl)
  exact h.1 syncFileA (by decide) rfl

/-! ## Claim C9 -/

/-- C9: a sync run fetches exactly the gated candidates truncated to
the first `maxFiles` (500 when the option is absent): the fetched list
is `gateFiles` of the candidates, its length never exceeds the cap,
and every upserted path comes from a fetched candidate — changed
candidates beyond the cap are neither fetched nor upserted in the
run. -/
theorem c9_max_files_cap (db : DB) (env : SyncEnv) (opts : SyncOptions)
    (files : List WhatsNewFile) (m : Option (List (String × String)))
    (ce : Bool) (tf : List String)
    (hnotRecent : (!(opts.force.getD false) && env.hoursSinceLastSyncLt1) = false)
    (hlist : listingStep env (opts.force.getD false) db.repoShas = .ok (files, m, ce, tf))
    (hnotEmpty : (!(opts.force.getD false) && ce) = false) :
    (syncFromGitHub db env opts).snd.snd.rawFetched =
      gateFiles (opts.force.getD false) (getFileShaMap db.updates).isEmpty
        (getFileShaMap db.updates) (opts.maxFiles.getD 500) files ∧
    (syncFromGitHub db env opts).snd.snd.rawFetched.length ≤ opts.maxFiles.getD 500 ∧
    ∀ p ∈ (syncFromGitHub db env opts).snd.snd.upsertedPaths,
      ∃ f ∈ (syncFromGitHub db env opts).snd.snd.rawFetched, f.path = p := by
  simp only [syncFromGitHub, hnotRecent, Bool.false_eq_true, if_false, hlist, hnotEmpty]
  refine ⟨?_, ?_, ?_⟩
  · trivial
  · simp only [gateFiles, List.length_take]
    exact Nat.min_le_left _ _
  · intro p hp
    have hup := (processFiles_counts env db.updates
      (gateFiles (opts.force.getD false) (getFileShaMap db.updates).isEmpty
        (getFileShaMap db.updates) (opts.maxFiles.getD 500) files)).2.2
    rw [hup] at hp
    rcases List.mem_map.mp hp with ⟨f, hf, hfp⟩
    exact ⟨f, List.mem_of_mem_filter hf, hfp⟩

/-- Witness for C9: the witness run fetches no more than the default
cap of 500 candidates. -/
theorem c9_max_files_cap_witness :
    (syncFromGitHub c4Db c4Env { }).snd.snd.rawFetched.length ≤ 500 := by
  have h := c9_max_files_cap c4Db c4Env { } [syncFileA, syncFileB, syncFileC]
    (some [("m/docs", "tip2")]) false ["m/docs"] (by rfl) (by rfl) (by rfl)
  exact h.2.1

/-! ## Helper lemmas for the search order -/

/-- The row order is total. -/
theorem rowBefore_total (a b : D365Update) :
    rowBefore a b = true ∨ rowBefore b a = true := by
  unfold rowBefore
  rcases sortKey a with _ | x <;> rcases sortKey b with _ | y <;> simp [sqlLe]
  exact le_total y.data x.data

/-- The row order is transitive. -/
theorem rowBefore_trans {a b c : D365Update} (hab : rowBefore a b = true)
    (hbc : rowBefore b c = true) : rowBefore a c = true := by
  unfold rowBefore at *
  rcases ha : sortKey a with _ | x <;> rcases hb : sortKey b with _ | y <;>
    rcases hc : sortKey c with _ | z <;> simp_all [sqlLe]
  exact le_trans hbc hab

/-- Insertion adds exactly the inserted row to the members. -/
theorem mem_insertSorted (a x : D365Update) (l : List D365Update) :
    x ∈ insertSorted a l ↔ x = a ∨ x ∈ l := by
  induction l with
  | nil => simp [insertSorted]
  | cons b bs ih =>
    cases hab : rowBefore a b <;> (simp [insertSorted, hab, ih]; try tauto)

/-- Insertion preserves sortedness. -/
theorem pairwise_insertSorted (a : D365Update) (l : List D365Update)
    (h : l.Pairwise fun x y => rowBefore x y = true) :
    (insertSorted a l).Pairwise fun x y => rowBefore x y = true := by
  induction l with
  | nil => simp [insertSorted]
  | cons b bs ih =>
    rcases List.pairwise_cons.mp h with ⟨hb, hbs⟩
    cases hab : rowBefore a b
    · simp only [insertSorted, hab, Bool.false_eq_true, if_false]
      refine List.pairwise_cons.mpr ⟨?_, ih hbs⟩
      intro x hx
      rcases (mem_insertSorted a x bs).mp hx with hxa | hxbs
      · subst hxa
        rcases rowBefore_total x b with h1 | h1
        · rw [hab] at h1
          exact absurd h1 (by simp)
        · exact h1
      · exact hb x hxbs
    · simp only [insertSorted, hab, if_true]
      refine List.pairwise_cons.mpr ⟨?_, h⟩
      intro x hx
      rcases List.mem_cons.mp hx with hxb | hxbs
      · subst hxb
        exact hab
      · exact rowBefore_trans hab (hb x hxbs)

/-- The sort of the `ORDER BY` model is sorted. -/
theorem pairwise_sortRows (l : List D365Update) :
    (sortRows l).Pairwise fun x y => rowBefore x y = true := by
  induction l with
  | nil => simp [sortRows]
  | cons a as ih => exact pairwise_insertSorted a (sortRows as) ih

/-- The sort keeps exactly the members. -/
theorem mem_sortRows (x : D365Update) (l : List D365Update) :
    x ∈ sortRows l ↔ x ∈ l := by
  induction l with
  | nil => simp [sortRows]
  | cons a as ih => simp [sortRows, mem_insertSorted, ih]

/-- Pagination only removes rows. -/
theorem applyPagination_sublist (f : SearchFilters) (l : List D365Update) :
    (applyPagination f l).Sublist l := by
  have hoff : (match f.offset with
      | some o => if 0 < o then l.drop o else l
      | none => l).Sublist l := by
    rcases f.offset with _ | o
    · exact List.Sublist.refl l
    · show (if 0 < o then l.drop o else l).Sublist l
      split
      · exact List.drop_sublist o l
      · exact List.Sublist.refl l
  unfold applyPagination
  rcases f.limit with _ | li
  · exact hoff
  · exact List.Sublist.trans (List.take_sublist li _) hoff

/-! ## Claim C5 -/

/-- Counterexample to C5: `c5Row`'s declared release date is populated
and normalizes to `2020-01-15`, which fails the supplied lower bound
`2024-01-01`, so under the claim's reading ("evaluated against the
normalized declared release date when it is populated, otherwise
against the last-change date") the row must be excluded — yet
`searchUpdates` returns it, because the SQL date filter is a
disjunction that also accepts the in-range commit date. -/
theorem c5_counterexample :
    searchUpdates c5Fts [c5Row] c5Filters = [c5Row] ∧
    specDateRangePred c5Filters c5Row = false :=
  ⟨rfl, rfl⟩

/-- C5 (amended): every returned row satisfies every supplied
predicate, with the date bounds evaluated disjunctively — a bound is
met when the non-null normalized declared release date meets it OR the
non-null commit date meets it (each bound independently); the result
is ordered by the normalized date descending with nulls last; a
supplied limit caps the result length; and with no limit and no offset
every matching row is returned. -/
theorem c5_search_composition (ftsMatch : String → D365Update → Bool)
    (rows : List D365Update) (f : SearchFilters) :
    (∀ r ∈ searchUpdates ftsMatch rows f,
      (∀ p, f.product = some p → r.product = p) ∧
      (∀ v, f.version = some v → ∃ s, r.version = some s ∧ containsSub s v = true) ∧
      (∀ a, f.dateFrom = some a → dateFromCond r a = true) ∧
      (∀ b, f.dateTo = some b → dateToCond r b = true)) ∧
    (searchUpdates ftsMatch rows f).Pairwise (fun x y => rowBefore x y = true) ∧
    (∀ li, f.limit = some li → (searchUpdates ftsMatch rows f).length ≤ li) ∧
    (f.limit = none → f.offset = none →
      ∀ r ∈ rows, (∀ q, f.query = some q → ftsMatch q r = true) →
        searchFilterPred f r = true → r ∈ searchUpdates ftsMatch rows f) := by
  have hpred : ∀ r ∈ searchUpdates ftsMatch rows f, searchFilterPred f r = true := by
    intro r hr
    have hr2 : r ∈ sortRows ((match f.query with
        | some q => rows.filter (ftsMatch q)
        | none => rows).filter (searchFilterPred f)) :=
      (applyPagination_sublist f _).subset hr
    exact (List.mem_filter.mp ((mem_sortRows r _).mp hr2)).2
  refine ⟨?_, ?_, ?_, ?_⟩
  · intro r hr
    have hp := hpred r hr
    unfold searchFilterPred at hp
    simp only [Bool.and_eq_true] at hp
    obtain ⟨⟨⟨hprod, hver⟩, hfrom⟩, hto⟩ := hp
    refine ⟨?_, ?_, ?_, ?_⟩
    · intro p hpf
      rw [hpf] at hprod
      exact beq_iff_eq.mp hprod
    · intro v hvf
      rw [hvf] at hver
      rcases hrv : r.version with _ | s
      · rw [hrv] at hver
        exact absurd hver (by simp)
      · rw [hrv] at hver
        exact ⟨s, rfl, hver⟩
    · intro a haf
      rw [haf] at hfrom
      exact hfrom
    · intro b hbf
      rw [hbf] at hto
      exact hto
  · exact List.Pairwise.sublist (applyPagination_sublist f _) (pairwise_sortRows _)
  · intro li hli
    unfold searchUpdates applyPagination
    rw [hli]
    rw [List.length_take]
    exact Nat.min_le_left _ _
  · intro hlim hoff r hr hq hpredr
    have hbase : r ∈ (match f.query with
        | some q => rows.filter (ftsMatch q)
        | none => rows) := by
      rcases hfq : f.query with _ | q
      · exact hr
      · exact List.mem_filter.mpr ⟨hr, hq q hfq⟩
    have hfil : r ∈ (match f.query with
        | some q => rows.filter (ftsMatch q)
        | none => rows).filter (searchFilterPred f) :=
      List.mem_filter.mpr ⟨hbase, hpredr⟩
    unfold searchUpdates applyPagination
    rw [hlim, hoff]
    exact (mem_sortRows r _).mpr hfil

/-- Witness for C5 (amended) at the spec's scenario: five matching
rows with `limit = 2` return at most two rows. -/
theorem c5_search_composition_witness :
    (searchUpdates c5Fts c5WitRows c5WitFilters).length ≤ 2 :=
  (c5_search_composition c5Fts c5WitRows c5WitFilters).2.2.1 2 rfl

end D365
